import Mathlib

/-
Verification development for the zcash_note_encryption crate
(src/lib.rs and src/note_bytes.rs), a protocol-agnostic note
encryption core parametric over a Domain of protocol operations.

Modelling conventions:
- bytes are Nat values below 256, buffers are List Nat;
- the external chacha20 / chacha20poly1305 crates are modelled by an
  executable RFC 8439 implementation (ChaCha20 block function,
  Poly1305 authenticator, and the detached-AEAD wrappers the crate
  exposes as encrypt_in_place_detached / decrypt_in_place_detached);
- in-place buffer mutation becomes functional update;
- a source-side panic that a correct Domain implementation can never
  trigger (expect / unwrap / copy_from_slice width mismatches) is
  modelled as an Option none; all theorems carry hypotheses that rule
  those branches out, so the distinction never matters to the claims;
- the Rust trait Domain becomes a bundled structure whose associated
  types are Type-valued fields; the byte-buffer associated types
  (NotePlaintextBytes and friends) are lists whose statically-known
  widths become Nat-valued fields of the structure.
-/

namespace ZcashNoteEnc

/-- Byte buffers: lists of naturals below 256. -/
abbrev Bytes := List Nat

/-- XOR of two byte buffers, pointwise (the result has the length of the
shorter buffer, which is always the plaintext length at our call sites). -/
def xorBytes (a b : Bytes) : Bytes := List.zipWith (fun x y => x ^^^ y) a b

/-- Addition of 32-bit words modulo 2^32. -/
def add32 (a b : Nat) : Nat := (a + b) % 4294967296

/-- Left rotation of a 32-bit word. -/
def rotl32 (x n : Nat) : Nat := ((x <<< n) % 4294967296) ||| (x >>> (32 - n))

/-- Little-endian value of a byte list. -/
def leNum : Bytes → Nat
  | [] => 0
  | b :: rest => b + 256 * leNum rest

/-- Little-endian encoding of a natural as k bytes. -/
def leBytes (k n : Nat) : Bytes := (List.range k).map fun i => n / 256 ^ i % 256

/-- Interpret a byte list as little-endian 32-bit words (4 bytes each). -/
def leWords : Bytes → List Nat
  | b0 :: b1 :: b2 :: b3 :: rest =>
    (b0 + 256 * b1 + 65536 * b2 + 16777216 * b3) :: leWords rest
  | _ => []

/-- Little-endian 4-byte encoding of a 32-bit word. -/
def leBytes4 (w : Nat) : Bytes := [w % 256, w / 256 % 256, w / 65536 % 256, w / 16777216 % 256]

/-- Serialize a word list to bytes, little-endian per word. -/
def bytesOfWords : List Nat → Bytes
  | [] => []
  | w :: ws => leBytes4 w ++ bytesOfWords ws

/-- ChaCha20 quarter round acting at four positions of the 16-word state. -/
def quarterRound (st : List Nat) (ia ib ic di : Nat) : List Nat :=
  let a := st.getD ia 0
  let b := st.getD ib 0
  let c := st.getD ic 0
  let d := st.getD di 0
  let a := add32 a b
  let d := rotl32 (d ^^^ a) 16
  let c := add32 c d
  let b := rotl32 (b ^^^ c) 12
  let a := add32 a b
  let d := rotl32 (d ^^^ a) 8
  let c := add32 c d
  let b := rotl32 (b ^^^ c) 7
  (((st.set ia a).set ib b).set ic c).set di d

/-- One ChaCha20 double round: four column rounds then four diagonal rounds. -/
def doubleRound (st : List Nat) : List Nat :=
  let st := quarterRound st 0 4 8 12
  let st := quarterRound st 1 5 9 13
  let st := quarterRound st 2 6 10 14
  let st := quarterRound st 3 7 11 15
  let st := quarterRound st 0 5 10 15
  let st := quarterRound st 1 6 11 12
  let st := quarterRound st 2 7 8 13
  quarterRound st 3 4 9 14

/-- Iterate the double round. ChaCha20 uses 10 double rounds. -/
def chachaRounds : Nat → List Nat → List Nat
  | 0, st => st
  | n + 1, st => chachaRounds n (doubleRound st)

/-- Initial ChaCha20 state: the four RFC 8439 constants, 8 key words, the
block counter and 3 nonce words.  The crate only accepts 32-byte keys and
12-byte nonces (enforced by its types); padding and truncation to exactly
16 words keeps the model total on other lengths, where the source would
not typecheck. -/
def chachaInit (key nonce : Bytes) (counter : Nat) : List Nat :=
  (([1634760805, 857760878, 2036477234, 1797285236] ++ leWords key ++
      [counter % 4294967296] ++ leWords nonce) ++ List.replicate 16 0).take 16

/-- The ChaCha20 block function: 64 keystream bytes for a given counter. -/
def chachaBlock (key nonce : Bytes) (counter : Nat) : Bytes :=
  let st := chachaInit key nonce counter
  bytesOfWords (List.zipWith add32 (chachaRounds 10 st) st)

/-- Concatenation of k consecutive ChaCha20 blocks starting at a counter. -/
def chachaBlocks (key nonce : Bytes) (counter : Nat) : Nat → Bytes
  | 0 => []
  | k + 1 => chachaBlock key nonce counter ++ chachaBlocks key nonce (counter + 1) k

/-- The first len bytes of ChaCha20 keystream starting at block counter. -/
def chacha_keystream (key nonce : Bytes) (counter len : Nat) : Bytes :=
  (chachaBlocks key nonce counter ((len + 63) / 64)).take len

/-- Model of seeking a freshly keyed ChaCha20 stream cipher to a byte
offset and applying the keystream to a buffer: XOR against the bytes of
the raw keystream (counter starting at 0) from that offset on. -/
def chacha20_apply_keystream_seek (key nonce : Bytes) (offset : Nat) (buf : Bytes) : Bytes :=
  xorBytes buf ((chacha_keystream key nonce 0 (offset + buf.length)).drop offset)

/-- The Poly1305 prime 2^130 - 5. -/
def polyP : Nat := 1361129467683753853853498429727072845819

/-- Poly1305 accumulator over 16-byte chunks; fuel-driven recursion (the
fuel is the message length, which bounds the number of chunks). -/
def polyChunks (r : Nat) : Nat → Bytes → Nat → Nat
  | 0, _, acc => acc
  | _, [], acc => acc
  | fuel + 1, msg, acc =>
    let chunk := msg.take 16
    let n := leNum chunk + 2 ^ (8 * chunk.length)
    polyChunks r fuel (msg.drop 16) ((acc + n) * r % polyP)

/-- The Poly1305 one-time authenticator (RFC 8439): 16-byte tag from a
32-byte key (clamped r then s) and a message. -/
def poly1305 (key msg : Bytes) : Bytes :=
  let r := leNum (key.take 16) &&& 0x0ffffffc0ffffffc0ffffffc0fffffff
  let s := leNum ((key.drop 16).take 16)
  leBytes 16 ((polyChunks r msg.length msg 0 + s) % 2 ^ 128)

/-- Zero padding to the next 16-byte boundary, used for the MAC input. -/
def pad16 (x : Bytes) : Bytes := List.replicate ((16 - x.length % 16) % 16) 0

/-- Input of the Poly1305 MAC in the ChaCha20-Poly1305 AEAD construction. -/
def aeadMacData (aad ct : Bytes) : Bytes :=
  aad ++ pad16 aad ++ ct ++ pad16 ct ++ leBytes 8 aad.length ++ leBytes 8 ct.length

/-- The 12-byte all-zero nonce used for every ciphertext in this crate. -/
def zero_nonce : Bytes := List.replicate 12 0

/-- ChaCha20-Poly1305 encrypt_in_place_detached: ciphertext is the
plaintext XOR keystream starting at block 1 (block 0 yields the Poly1305
one-time key), tag is Poly1305 over the padded AAD and ciphertext. -/
def chacha20poly1305_encrypt_detached (key nonce aad pt : Bytes) : Bytes × Bytes :=
  let ct := xorBytes pt (chacha_keystream key nonce 1 pt.length)
  let polyKey := (chachaBlock key nonce 0).take 32
  (ct, poly1305 polyKey (aeadMacData aad ct))

/-- ChaCha20-Poly1305 decrypt_in_place_detached: recompute the tag over
the ciphertext, fail if it differs, otherwise XOR the keystream back. -/
def chacha20poly1305_decrypt_detached (key nonce aad ct tag : Bytes) : Option Bytes :=
  let polyKey := (chachaBlock key nonce 0).take 32
  if poly1305 polyKey (aeadMacData aad ct) = tag then
    some (xorBytes ct (chacha_keystream key nonce 1 ct.length))
  else none

/-- Option-valued checked subtraction, as Nat::checked_sub. -/
def checked_sub (a b : Nat) : Option Nat := if b ≤ a then some (a - b) else none

namespace NoteBytesData

/-- NoteBytesData::from_slice (src/note_bytes.rs): succeeds exactly when
the slice has the statically expected length N. -/
def from_slice (N : Nat) (bytes : Bytes) : Option Bytes :=
  if bytes.length = N then some bytes else none

/-- NoteBytesData::from_slice_with_tag (src/note_bytes.rs): N.checked_sub
of the tag width, then an exact length check on the ciphertext body, then
the concatenation body followed by tag. -/
def from_slice_with_tag (N : Nat) (output tag : Bytes) : Option Bytes :=
  match checked_sub N tag.length with
  | none => none
  | some expected_output_len =>
    if output.length = expected_output_len then some (output ++ tag) else none

end NoteBytesData

/-- OUT_PLAINTEXT_SIZE (src/lib.rs): 32 bytes of pk_d followed by 32 of esk. -/
def OUT_PLAINTEXT_SIZE : Nat := 32 + 32

/-- AEAD_TAG_SIZE (src/lib.rs). -/
def AEAD_TAG_SIZE : Nat := 16

/-- OUT_CIPHERTEXT_SIZE (src/lib.rs): encrypted outgoing plaintext plus tag. -/
def OUT_CIPHERTEXT_SIZE : Nat := OUT_PLAINTEXT_SIZE + AEAD_TAG_SIZE

/-- NoteValidity (src/lib.rs). -/
inductive NoteValidity where
  | Valid
  | Invalid
deriving DecidableEq

/-- The Domain trait (src/lib.rs) as a bundled structure.  Associated
types become Type-valued fields; trait methods become function fields.

Concretions forced by the modelling:
- EphemeralKeyBytes, OutgoingCipherKey, OutPlaintextBytes and the
  SymmetricKey (which the trait only ever reads through AsRef of u8)
  are byte lists;
- ExtractedCommitmentBytes (an abstract type carrying Eq and a From
  conversion out of ExtractedCommitment) is a byte list, with the From
  conversion as the field cmstar_bytes_from, so the Rust Eq comparison
  is list equality;
- the four NoteBytes associated buffer types are byte lists whose
  statically-known widths are the Nat-valued size fields;
- the ConstantTimeEq bound on EphemeralSecretKey is the Bool-valued
  field esk_ct_eq (subtle ct_eq: true exactly on equal values). -/
structure Domain where
  EphemeralSecretKey : Type
  EphemeralPublicKey : Type
  PreparedEphemeralPublicKey : Type
  SharedSecret : Type
  Note : Type
  Recipient : Type
  DiversifiedTransmissionKey : Type
  IncomingViewingKey : Type
  OutgoingViewingKey : Type
  ValueCommitment : Type
  ExtractedCommitment : Type
  Memo : Type
  notePlaintextSize : Nat
  noteCiphertextSize : Nat
  compactNotePlaintextSize : Nat
  compactNoteCiphertextSize : Nat
  esk_ct_eq : EphemeralSecretKey → EphemeralSecretKey → Bool
  derive_esk : Note → Option EphemeralSecretKey
  get_pk_d : Note → DiversifiedTransmissionKey
  prepare_epk : EphemeralPublicKey → PreparedEphemeralPublicKey
  ka_derive_public : Note → EphemeralSecretKey → EphemeralPublicKey
  ka_agree_enc : EphemeralSecretKey → DiversifiedTransmissionKey → SharedSecret
  ka_agree_dec : IncomingViewingKey → PreparedEphemeralPublicKey → SharedSecret
  kdf : SharedSecret → Bytes → Bytes
  note_plaintext_bytes : Note → Memo → Bytes
  derive_ock : OutgoingViewingKey → ValueCommitment → Bytes → Bytes → Bytes
  outgoing_plaintext_bytes : Note → EphemeralSecretKey → Bytes
  epk_bytes : EphemeralPublicKey → Bytes
  epk : Bytes → Option EphemeralPublicKey
  cmstar : Note → ExtractedCommitment
  cmstar_bytes_from : ExtractedCommitment → Bytes
  parse_note_plaintext_without_memo_ivk :
    IncomingViewingKey → Bytes → Option (Note × Recipient)
  parse_note_plaintext_without_memo_ovk :
    DiversifiedTransmissionKey → Bytes → Option (Note × Recipient)
  split_plaintext_at_memo : Bytes → Option (Bytes × Memo)
  extract_pk_d : Bytes → Option DiversifiedTransmissionKey
  extract_esk : Bytes → Option EphemeralSecretKey

/-- Domain::parse_note_plaintext_bytes default method (src/lib.rs). -/
def Domain.parse_note_plaintext_bytes (D : Domain) (plaintext : Bytes) : Option Bytes :=
  NoteBytesData.from_slice D.notePlaintextSize plaintext

/-- Domain::parse_note_ciphertext_bytes default method (src/lib.rs). -/
def Domain.parse_note_ciphertext_bytes (D : Domain) (output tag : Bytes) : Option Bytes :=
  NoteBytesData.from_slice_with_tag D.noteCiphertextSize output tag

/-- Domain::parse_compact_note_plaintext_bytes default method (src/lib.rs). -/
def Domain.parse_compact_note_plaintext_bytes (D : Domain) (plaintext : Bytes) : Option Bytes :=
  NoteBytesData.from_slice D.compactNotePlaintextSize plaintext

/-- The ShieldedOutput trait (src/lib.rs) as a record of the data its
accessors expose: the ephemeral key bytes, the extracted commitment, the
optional full note ciphertext (none when the output is compact), and the
compact note ciphertext. -/
structure ShieldedOutput (D : Domain) where
  ephemeral_key : Bytes
  cmstar : D.ExtractedCommitment
  enc_ciphertext : Option Bytes
  enc_ciphertext_compact : Bytes

/-- ShieldedOutput::cmstar_bytes default method (src/lib.rs). -/
def ShieldedOutput.cmstar_bytes {D : Domain} (o : ShieldedOutput D) : Bytes :=
  D.cmstar_bytes_from o.cmstar

/-- ShieldedOutput::split_ciphertext_at_tag default method (src/lib.rs).
The two expect calls there (ciphertext shorter than the tag, and a width
mismatch between NoteCiphertextBytes and NotePlaintextBytes) are
domain-implementation bugs that panic in the source; they are modelled
as none. -/
def ShieldedOutput.split_ciphertext_at_tag {D : Domain} (o : ShieldedOutput D) :
    Option (Bytes × Bytes) :=
  match o.enc_ciphertext with
  | none => none
  | some enc_ciphertext_bytes =>
    match checked_sub enc_ciphertext_bytes.length AEAD_TAG_SIZE with
    | none => none
    | some tag_loc =>
      match D.parse_note_plaintext_bytes (enc_ciphertext_bytes.take tag_loc) with
      | none => none
      | some plaintext => some (plaintext, enc_ciphertext_bytes.drop tag_loc)

/-- NoteEncryption (src/lib.rs): the encryption context owning the
ephemeral keypair, the note, the memo, and the optional ovk. -/
structure NoteEncryption (D : Domain) where
  epk : D.EphemeralPublicKey
  esk : D.EphemeralSecretKey
  note : D.Note
  memo : D.Memo
  ovk : Option D.OutgoingViewingKey

/-- NoteEncryption::new (src/lib.rs).  The source calls expect on
derive_esk (ZIP 212 is a caller contract); a missing esk is modelled as
none. -/
def NoteEncryption.new (D : Domain) (ovk : Option D.OutgoingViewingKey)
    (note : D.Note) (memo : D.Memo) : Option (NoteEncryption D) :=
  match D.derive_esk note with
  | none => none
  | some esk => some ⟨D.ka_derive_public note esk, esk, note, memo, ovk⟩

/-- NoteEncryption::encrypt_note_plaintext (src/lib.rs).  The final
expect (the output length is correct) is modelled through the Option of
parse_note_ciphertext_bytes. -/
def NoteEncryption.encrypt_note_plaintext {D : Domain} (ne : NoteEncryption D) :
    Option Bytes :=
  let pk_d := D.get_pk_d ne.note
  let shared_secret := D.ka_agree_enc ne.esk pk_d
  let key := D.kdf shared_secret (D.epk_bytes ne.epk)
  let input := D.note_plaintext_bytes ne.note ne.memo
  let enc := chacha20poly1305_encrypt_detached key zero_nonce [] input
  D.parse_note_ciphertext_bytes enc.1 enc.2

/-- A deterministic byte-stream RNG with an explicit read position,
modelling the caller-supplied RngCore by explicit state passing. -/
structure CountingRng where
  stream : Nat → Nat
  pos : Nat

/-- RngCore::fill_bytes on the stream model: read n bytes, advance. -/
def CountingRng.fill_bytes (rng : CountingRng) (n : Nat) : Bytes × CountingRng :=
  ((List.range n).map fun i => rng.stream (rng.pos + i) % 256,
    ⟨rng.stream, rng.pos + n⟩)

/-- NoteEncryption::encrypt_outgoing_plaintext (src/lib.rs).  With an ovk
the ock is derived and the outgoing plaintext encodes pk_d and esk; with
ovk absent both the ock (32 bytes) and the input (OUT_PLAINTEXT_SIZE
bytes) are drawn from the RNG.  Either way the result is the AEAD
ciphertext of the input under the ock with the zero nonce, followed by
the 16-byte tag. -/
def NoteEncryption.encrypt_outgoing_plaintext {D : Domain} (ne : NoteEncryption D)
    (cv : D.ValueCommitment) (cmstar : D.ExtractedCommitment) (rng : CountingRng) :
    Bytes × CountingRng :=
  let step :=
    match ne.ovk with
    | some ovk =>
      (D.derive_ock ovk cv (D.cmstar_bytes_from cmstar) (D.epk_bytes ne.epk),
        D.outgoing_plaintext_bytes ne.note ne.esk, rng)
    | none =>
      let r1 := rng.fill_bytes 32
      let r2 := r1.2.fill_bytes OUT_PLAINTEXT_SIZE
      (r1.1, r2.1, r2.2)
  let enc := chacha20poly1305_encrypt_detached step.1 zero_nonce [] step.2.1
  (enc.1 ++ enc.2, step.2.2)

/-- check_note_validity (src/lib.rs): commitment binding, then (post
ZIP 212) the constant-time comparison of the recomputed epk encoding
against the ephemeral key of the output. -/
def check_note_validity (D : Domain) (note : D.Note)
    (ephemeral_key : Bytes) (cmstar_bytes : Bytes) : NoteValidity :=
  if D.cmstar_bytes_from (D.cmstar note) == cmstar_bytes then
    match D.derive_esk note with
    | some derived_esk =>
      if D.epk_bytes (D.ka_derive_public note derived_esk) == ephemeral_key then
        NoteValidity.Valid
      else
        NoteValidity.Invalid
    | none => NoteValidity.Valid
  else NoteValidity.Invalid

/-- The free function parse_note_plaintext_without_memo_ivk (src/lib.rs):
domain parse, then the shared validity check. -/
def parse_note_plaintext_without_memo_ivk (D : Domain) (ivk : D.IncomingViewingKey)
    (ephemeral_key : Bytes) (cmstar_bytes : Bytes) (plaintext : Bytes) :
    Option (D.Note × D.Recipient) :=
  match D.parse_note_plaintext_without_memo_ivk ivk plaintext with
  | none => none
  | some (note, recipient) =>
    if check_note_validity D note ephemeral_key cmstar_bytes = NoteValidity.Valid then
      some (note, recipient)
    else
      none

/-- try_note_decryption_inner (src/lib.rs): split the tag off the full
ciphertext, AEAD-decrypt in place with the zero nonce, split the memo
off, then parse and validity-check. -/
def try_note_decryption_inner (D : Domain) (ivk : D.IncomingViewingKey)
    (ephemeral_key : Bytes) (output : ShieldedOutput D) (key : Bytes) :
    Option (D.Note × D.Recipient × D.Memo) :=
  match output.split_ciphertext_at_tag with
  | none => none
  | some (plaintext, tag) =>
    match chacha20poly1305_decrypt_detached key zero_nonce [] plaintext tag with
    | none => none
    | some plaintext =>
      match D.split_plaintext_at_memo plaintext with
      | none => none
      | some (compact, memo) =>
        match parse_note_plaintext_without_memo_ivk D ivk ephemeral_key
            output.cmstar_bytes compact with
        | none => none
        | some (note, recipient) => some (note, recipient, memo)

/-- try_note_decryption (src/lib.rs): decode the ephemeral key (failing
closed), derive the symmetric key, defer to the inner function. -/
def try_note_decryption (D : Domain) (ivk : D.IncomingViewingKey)
    (output : ShieldedOutput D) : Option (D.Note × D.Recipient × D.Memo) :=
  let ephemeral_key := output.ephemeral_key
  match D.epk ephemeral_key with
  | none => none
  | some e =>
    let epk := D.prepare_epk e
    let shared_secret := D.ka_agree_dec ivk epk
    let key := D.kdf shared_secret ephemeral_key
    try_note_decryption_inner D ivk ephemeral_key output key

/-- try_compact_note_decryption_inner (src/lib.rs): parse the compact
ciphertext, key a raw ChaCha20 stream with the zero nonce, seek it to
byte offset 64 (skipping the Poly1305 keying block), apply the keystream
in place, then parse and validity-check.  No tag is verified. -/
def try_compact_note_decryption_inner (D : Domain) (ivk : D.IncomingViewingKey)
    (ephemeral_key : Bytes) (output : ShieldedOutput D) (key : Bytes) :
    Option (D.Note × D.Recipient) :=
  match D.parse_compact_note_plaintext_bytes output.enc_ciphertext_compact with
  | none => none
  | some plaintext =>
    let plaintext := chacha20_apply_keystream_seek key zero_nonce 64 plaintext
    parse_note_plaintext_without_memo_ivk D ivk ephemeral_key
      output.cmstar_bytes plaintext

/-- try_compact_note_decryption (src/lib.rs). -/
def try_compact_note_decryption (D : Domain) (ivk : D.IncomingViewingKey)
    (output : ShieldedOutput D) : Option (D.Note × D.Recipient) :=
  let ephemeral_key := output.ephemeral_key
  match D.epk ephemeral_key with
  | none => none
  | some e =>
    let epk := D.prepare_epk e
    let shared_secret := D.ka_agree_dec ivk epk
    let key := D.kdf shared_secret ephemeral_key
    try_compact_note_decryption_inner D ivk ephemeral_key output key

/-- try_output_recovery_with_pkd_esk (src/lib.rs): note that the output
ephemeral key bytes feed the KDF directly and are never decoded through
Domain::epk.  After the sender-side parse, ZIP 212 consistency compares
the esk derivable from the note against the supplied esk in constant
time, then the shared validity check runs. -/
def try_output_recovery_with_pkd_esk (D : Domain)
    (pk_d : D.DiversifiedTransmissionKey) (esk : D.EphemeralSecretKey)
    (output : ShieldedOutput D) : Option (D.Note × D.Recipient × D.Memo) :=
  let ephemeral_key := output.ephemeral_key
  let shared_secret := D.ka_agree_enc esk pk_d
  let key := D.kdf shared_secret ephemeral_key
  match output.split_ciphertext_at_tag with
  | none => none
  | some (plaintext, tag) =>
    match chacha20poly1305_decrypt_detached key zero_nonce [] plaintext tag with
    | none => none
    | some plaintext =>
      match D.split_plaintext_at_memo plaintext with
      | none => none
      | some (compact, memo) =>
        match D.parse_note_plaintext_without_memo_ovk pk_d compact with
        | none => none
        | some (note, recipient) =>
          match D.derive_esk note with
          | some derived_esk =>
            if D.esk_ct_eq derived_esk esk then
              if check_note_validity D note ephemeral_key output.cmstar_bytes
                  = NoteValidity.Valid then
                some (note, recipient, memo)
              else none
            else none
          | none =>
            if check_note_validity D note ephemeral_key output.cmstar_bytes
                = NoteValidity.Valid then
              some (note, recipient, memo)
            else none

/-- try_output_recovery_with_ock (src/lib.rs): copy the 64-byte body out
of the 80-byte out_ciphertext, AEAD-decrypt it against the trailing tag,
extract pk_d and esk, and defer. -/
def try_output_recovery_with_ock (D : Domain) (ock : Bytes)
    (output : ShieldedOutput D) (out_ciphertext : Bytes) :
    Option (D.Note × D.Recipient × D.Memo) :=
  let body := out_ciphertext.take OUT_PLAINTEXT_SIZE
  match chacha20poly1305_decrypt_detached ock zero_nonce [] body
      (out_ciphertext.drop OUT_PLAINTEXT_SIZE) with
  | none => none
  | some op =>
    match D.extract_pk_d op with
    | none => none
    | some pk_d =>
      match D.extract_esk op with
      | none => none
      | some esk => try_output_recovery_with_pkd_esk D pk_d esk output

/-- try_output_recovery_with_ovk (src/lib.rs). -/
def try_output_recovery_with_ovk (D : Domain) (ovk : D.OutgoingViewingKey)
    (output : ShieldedOutput D) (cv : D.ValueCommitment) (out_ciphertext : Bytes) :
    Option (D.Note × D.Recipient × D.Memo) :=
  let ock := D.derive_ock ovk cv output.cmstar_bytes output.ephemeral_key
  try_output_recovery_with_ock D ock output out_ciphertext

/-- Instrumented clone of try_note_decryption with the identical control
flow, additionally counting how many AEAD invocations are reached; used
to state that an invalid ephemeral-key encoding fails before any AEAD
call.  A proved agreement lemma ties its first component to
try_note_decryption. -/
def try_note_decryption_counted (D : Domain) (ivk : D.IncomingViewingKey)
    (output : ShieldedOutput D) : Option (D.Note × D.Recipient × D.Memo) × Nat :=
  match D.epk output.ephemeral_key with
  | none => (none, 0)
  | some e =>
    let key := D.kdf (D.ka_agree_dec ivk (D.prepare_epk e)) output.ephemeral_key
    match output.split_ciphertext_at_tag with
    | none => (none, 0)
    | some (plaintext, tag) =>
      match chacha20poly1305_decrypt_detached key zero_nonce [] plaintext tag with
      | none => (none, 1)
      | some plaintext =>
        match D.split_plaintext_at_memo plaintext with
        | none => (none, 1)
        | some (compact, memo) =>
          match parse_note_plaintext_without_memo_ivk D ivk output.ephemeral_key
              output.cmstar_bytes compact with
          | none => (none, 1)
          | some (note, recipient) => (some (note, recipient, memo), 1)

/-- Instrumented clone of try_compact_note_decryption counting reached
stream-cipher invocations, as for try_note_decryption_counted. -/
def try_compact_note_decryption_counted (D : Domain) (ivk : D.IncomingViewingKey)
    (output : ShieldedOutput D) : Option (D.Note × D.Recipient) × Nat :=
  match D.epk output.ephemeral_key with
  | none => (none, 0)
  | some e =>
    let key := D.kdf (D.ka_agree_dec ivk (D.prepare_epk e)) output.ephemeral_key
    match D.parse_compact_note_plaintext_bytes output.enc_ciphertext_compact with
    | none => (none, 0)
    | some plaintext =>
      (parse_note_plaintext_without_memo_ivk D ivk output.ephemeral_key
        output.cmstar_bytes (chacha20_apply_keystream_seek key zero_nonce 64 plaintext), 1)

/-- A small concrete Domain instance (all abstract types are Nat, with a
degenerate key agreement) used to instantiate the theorems on concrete
inputs. -/
@[reducible] def TestDomain : Domain where
  EphemeralSecretKey := Nat
  EphemeralPublicKey := Nat
  PreparedEphemeralPublicKey := Nat
  SharedSecret := Nat
  Note := Nat
  Recipient := Nat
  DiversifiedTransmissionKey := Nat
  IncomingViewingKey := Nat
  OutgoingViewingKey := Nat
  ValueCommitment := Nat
  ExtractedCommitment := Nat
  Memo := Nat
  notePlaintextSize := 2
  noteCiphertextSize := 18
  compactNotePlaintextSize := 1
  compactNoteCiphertextSize := 1
  esk_ct_eq := fun a b => a == b
  derive_esk := fun n => some (n % 7 + 1)
  get_pk_d := fun n => n % 5 + 2
  prepare_epk := fun e => e
  ka_derive_public := fun _ esk => esk
  ka_agree_enc := fun _ pk_d => pk_d
  ka_agree_dec := fun ivk _ => ivk
  kdf := fun s ek => (List.range 32).map fun i => (s + i + ek.headD 0) % 256
  note_plaintext_bytes := fun n m => [n % 256, m % 256]
  derive_ock := fun ovk cv _ _ => (List.range 32).map fun i => (ovk + cv + i) % 256
  outgoing_plaintext_bytes := fun n e =>
    List.replicate 32 ((n % 5 + 2) % 256) ++ List.replicate 32 (e % 256)
  epk_bytes := fun e => e % 256 :: List.replicate 31 0
  epk := fun b => if b.headD 0 < 128 then some (b.headD 0) else none
  cmstar := fun n => n
  cmstar_bytes_from := fun c => [c % 256]
  parse_note_plaintext_without_memo_ivk := fun _ c =>
    match c with
    | [a] => some (a, a + 1)
    | _ => none
  parse_note_plaintext_without_memo_ovk := fun _ c =>
    match c with
    | [a] => some (a, a + 1)
    | _ => none
  split_plaintext_at_memo := fun pt =>
    match pt with
    | [a, b] => some ([a], b)
    | _ => none
  extract_pk_d := fun op => some (op.headD 0)
  extract_esk := fun op => some ((op.drop 32).headD 0)

/-- Variant of TestDomain whose notes are all pre ZIP 212: derive_esk
yields none. -/
@[reducible] def TestDomainPre : Domain :=
  { TestDomain with derive_esk := fun _ => none }

/-- Concrete encryption context over TestDomain (note 3, memo 9, esk 4,
epk 4, ovk 7) matching NoteEncryption.new TestDomain (some 7) 3 9. -/
def testCtx : NoteEncryption TestDomain := ⟨4, 4, 3, 9, some 7⟩

/-- The same context with ovk absent. -/
def testCtxNoOvk : NoteEncryption TestDomain := ⟨4, 4, 3, 9, none⟩

/-- A concrete deterministic RNG stream. -/
def testRng : CountingRng := ⟨fun i => i, 0⟩

/-- Ephemeral key bytes for the esk-mismatch scenario: the encoding of
the public key of esk 1, while the transmitted note derives esk 4. -/
def c7Ek : Bytes := 1 :: List.replicate 31 0

/-- Symmetric key of the mismatch scenario (sender side, esk 1, pk_d 5). -/
def c7Key : Bytes := TestDomain.kdf (TestDomain.ka_agree_enc 1 5) c7Ek

/-- AEAD encryption of the note plaintext of note 3 and memo 9 under the
mismatch-scenario key. -/
def c7Enc : Bytes × Bytes := chacha20poly1305_encrypt_detached c7Key zero_nonce [] [3, 9]

/-- The mismatch-scenario output: its ciphertext decrypts fine on both
paths, but the decrypted note derives esk 4 while the key material used
esk 1. -/
def c7Output : ShieldedOutput TestDomain :=
  ⟨c7Ek, 3, some (c7Enc.1 ++ c7Enc.2), (c7Enc.1).take 1⟩

/-- An output whose ephemeral-key bytes are an invalid encoding for
TestDomain (leading byte at least 128). -/
def c8Output : ShieldedOutput TestDomain :=
  ⟨200 :: List.replicate 31 0, 3, some (List.replicate 18 0), [0]⟩

/-- Invalid ephemeral-key encoding for the sender-recovery scenario. -/
def c10Ek : Bytes := 200 :: List.replicate 31 0

/-- Sender-side symmetric key of the recovery scenario: the KDF consumes
the raw (invalid) ephemeral-key bytes. -/
def c10Key : Bytes := TestDomainPre.kdf (TestDomainPre.ka_agree_enc 1 5) c10Ek

/-- AEAD encryption of the note plaintext of note 3 and memo 9 under the
recovery-scenario key. -/
def c10Enc : Bytes × Bytes := chacha20poly1305_encrypt_detached c10Key zero_nonce [] [3, 9]

/-- A pre-ZIP-212 output with an invalid ephemeral-key encoding whose
ciphertext nevertheless decrypts on the sender path. -/
def c10Output : ShieldedOutput TestDomainPre :=
  ⟨c10Ek, 3, some (c10Enc.1 ++ c10Enc.2), (c10Enc.1).take 1⟩

/-- Serializing words yields 4 bytes per word. -/
theorem length_bytesOfWords (ws : List Nat) : (bytesOfWords ws).length = 4 * ws.length := by
  induction ws with
  | nil => rfl
  | cons w ws ih => simp [bytesOfWords, leBytes4, ih]; ring

/-- A quarter round preserves the state length. -/
theorem length_quarterRound (st : List Nat) (a b c d : Nat) :
    (quarterRound st a b c d).length = st.length := by
  simp [quarterRound]

/-- A double round preserves the state length. -/
theorem length_doubleRound (st : List Nat) : (doubleRound st).length = st.length := by
  simp [doubleRound, length_quarterRound]

/-- Iterated double rounds preserve the state length. -/
theorem length_chachaRounds (n : Nat) (st : List Nat) :
    (chachaRounds n st).length = st.length := by
  induction n generalizing st with
  | zero => rfl
  | succ n ih => rw [chachaRounds, ih, length_doubleRound]

/-- The initial ChaCha20 state always has 16 words. -/
theorem length_chachaInit (key nonce : Bytes) (counter : Nat) :
    (chachaInit key nonce counter).length = 16 := by
  simp [chachaInit]
  omega

/-- A ChaCha20 block is 64 bytes. -/
theorem length_chachaBlock (key nonce : Bytes) (counter : Nat) :
    (chachaBlock key nonce counter).length = 64 := by
  rw [chachaBlock, length_bytesOfWords, List.length_zipWith, length_chachaRounds,
    length_chachaInit]
  simp

/-- Block concatenations are 64 bytes per block. -/
theorem length_chachaBlocks (key nonce : Bytes) (counter k : Nat) :
    (chachaBlocks key nonce counter k).length = 64 * k := by
  induction k generalizing counter with
  | zero => rfl
  | succ k ih => simp [chachaBlocks, length_chachaBlock, ih]; ring

/-- Splitting a run of blocks at a block boundary. -/
theorem chachaBlocks_add (key nonce : Bytes) (counter a b : Nat) :
    chachaBlocks key nonce counter (a + b) =
      chachaBlocks key nonce counter a ++ chachaBlocks key nonce (counter + a) b := by
  induction a generalizing counter with
  | zero => simp [chachaBlocks]
  | succ a ih =>
    have h : a + 1 + b = (a + b) + 1 := by omega
    rw [h, chachaBlocks, chachaBlocks, ih, List.append_assoc]
    have h2 : counter + 1 + a = counter + (a + 1) := by omega
    rw [h2]

/-- Enough blocks are generated to cover the requested length. -/
theorem le_blocks_cover (len : Nat) : len ≤ 64 * ((len + 63) / 64) := by
  have h := Nat.div_add_mod (len + 63) 64
  have h2 : (len + 63) % 64 < 64 := Nat.mod_lt _ (by norm_num)
  omega

/-- The keystream has exactly the requested length. -/
theorem length_chacha_keystream (key nonce : Bytes) (counter len : Nat) :
    (chacha_keystream key nonce counter len).length = len := by
  rw [chacha_keystream, List.length_take, length_chachaBlocks]
  exact Nat.min_eq_left (le_blocks_cover len)

/-- A shorter keystream is the matching left part of a longer one. -/
theorem take_chacha_keystream (key nonce : Bytes) (counter : Nat) {m len : Nat}
    (h : m ≤ len) :
    (chacha_keystream key nonce counter len).take m = chacha_keystream key nonce counter m := by
  rw [chacha_keystream, chacha_keystream, List.take_take, Nat.min_eq_left h]
  have hq : (m + 63) / 64 ≤ (len + 63) / 64 := Nat.div_le_div_right (by omega)
  rw [show (len + 63) / 64 = (m + 63) / 64 + ((len + 63) / 64 - (m + 63) / 64) from by omega,
    chachaBlocks_add]
  exact List.take_append_of_le_length (by rw [length_chachaBlocks]; exact le_blocks_cover m)

/-- Taking past a 64-byte leading chunk and then dropping that chunk
leaves the matching take of the remainder. -/
theorem take_drop_at64 (B rest : Bytes) (hB : B.length = 64) (len : Nat) :
    ((B ++ rest).take (64 + len)).drop 64 = rest.take len := by
  rw [← hB]
  rw [show (B ++ rest).take (B.length + len) = B ++ rest.take len from by
    simp [List.take_append]]
  exact List.drop_left ..

/-- Dropping the first 64 keystream bytes of a stream keyed at counter 0
yields the keystream starting at block counter 1: seeking the stream to
byte offset 64 is the same as starting at block 1. -/
theorem drop64_chacha_keystream (key nonce : Bytes) (len : Nat) :
    (chacha_keystream key nonce 0 (64 + len)).drop 64 = chacha_keystream key nonce 1 len := by
  rw [chacha_keystream, chacha_keystream]
  have hq : (64 + len + 63) / 64 = 1 + (len + 63) / 64 := by
    rw [show 64 + len + 63 = (len + 63) + 1 * 64 from by omega, Nat.add_mul_div_right _ _
      (by norm_num : (0:Nat) < 64)]
    omega
  rw [hq, chachaBlocks_add]
  have hb : chachaBlocks key nonce 0 1 = chachaBlock key nonce 0 := by
    simp [chachaBlocks]
  rw [hb, take_drop_at64 _ _ (length_chachaBlock ..)]

/-- Length of the XOR of two buffers. -/
theorem length_xorBytes (a b : Bytes) : (xorBytes a b).length = min a.length b.length := by
  simp [xorBytes]

/-- XOR-ing the same keystream twice gives the plaintext back, provided
the keystream covers the buffer. -/
theorem xorBytes_cancel {a b : Bytes} (h : a.length ≤ b.length) :
    xorBytes (xorBytes a b) b = a := by
  induction a generalizing b with
  | nil => simp [xorBytes]
  | cons x xs ih =>
    cases b with
    | nil => simp at h
    | cons y ys =>
      simp only [xorBytes, List.zipWith_cons_cons]
      rw [show x ^^^ y ^^^ y = x from Nat.xor_cancel_right y x]
      have := ih (b := ys) (by simpa using h)
      simp only [xorBytes] at this
      rw [this]

/-- Fixed-width little-endian encodings have the stated width. -/
theorem length_leBytes (k n : Nat) : (leBytes k n).length = k := by
  simp [leBytes]

/-- Poly1305 tags are 16 bytes. -/
theorem length_poly1305 (key msg : Bytes) : (poly1305 key msg).length = 16 := by
  rw [poly1305]
  exact length_leBytes ..

/-- AEAD ciphertexts have the plaintext length. -/
theorem length_aead_ct (key nonce aad pt : Bytes) :
    (chacha20poly1305_encrypt_detached key nonce aad pt).1.length = pt.length := by
  rw [chacha20poly1305_encrypt_detached]
  simp [length_xorBytes, length_chacha_keystream]

/-- AEAD tags are 16 bytes. -/
theorem length_aead_tag (key nonce aad pt : Bytes) :
    (chacha20poly1305_encrypt_detached key nonce aad pt).2.length = 16 := by
  rw [chacha20poly1305_encrypt_detached]
  exact length_poly1305 ..

/-- The detached AEAD decryption inverts the detached AEAD encryption. -/
theorem aead_roundtrip (key nonce aad pt : Bytes) :
    chacha20poly1305_decrypt_detached key nonce aad
      (chacha20poly1305_encrypt_detached key nonce aad pt).1
      (chacha20poly1305_encrypt_detached key nonce aad pt).2 = some pt := by
  have hlen : (xorBytes pt (chacha_keystream key nonce 1 pt.length)).length = pt.length := by
    rw [length_xorBytes, length_chacha_keystream]
    exact Nat.min_eq_left le_rfl
  simp only [chacha20poly1305_encrypt_detached, chacha20poly1305_decrypt_detached, hlen]
  rw [if_pos trivial, xorBytes_cancel (by rw [length_chacha_keystream])]

/-- Bytes read through fill_bytes have the requested count. -/
theorem length_fill_bytes (rng : CountingRng) (n : Nat) :
    (rng.fill_bytes n).1.length = n := by
  simp [CountingRng.fill_bytes]

/-- The instrumented note decryption computes the same result as
try_note_decryption. -/
theorem try_note_decryption_counted_fst (D : Domain) (ivk : D.IncomingViewingKey)
    (output : ShieldedOutput D) :
    (try_note_decryption_counted D ivk output).1 = try_note_decryption D ivk output := by
  simp only [try_note_decryption_counted, try_note_decryption, try_note_decryption_inner]
  repeat' (first | rfl | split)

/-- The instrumented compact decryption computes the same result as
try_compact_note_decryption. -/
theorem try_compact_note_decryption_counted_fst (D : Domain) (ivk : D.IncomingViewingKey)
    (output : ShieldedOutput D) :
    (try_compact_note_decryption_counted D ivk output).1 =
      try_compact_note_decryption D ivk output := by
  simp only [try_compact_note_decryption_counted, try_compact_note_decryption,
    try_compact_note_decryption_inner]
  cases D.epk output.ephemeral_key with
  | none => rfl
  | some e =>
    cases D.parse_compact_note_plaintext_bytes output.enc_ciphertext_compact with
    | none => rfl
    | some pt => rfl

/-- Characterization of from_slice_with_tag as a single length test. -/
theorem from_slice_with_tag_if (N : Nat) (output tag : Bytes) :
    NoteBytesData.from_slice_with_tag N output tag =
      (if output.length + tag.length = N then some (output ++ tag) else none) := by
  rw [NoteBytesData.from_slice_with_tag, checked_sub]
  by_cases h : tag.length ≤ N
  · rw [if_pos h]
    show (if output.length = N - tag.length then some (output ++ tag) else none) = _
    by_cases h2 : output.length = N - tag.length
    · rw [if_pos h2, if_pos (by omega)]
    · rw [if_neg h2, if_neg (by omega)]
  · rw [if_neg h]
    show none = _
    rw [if_neg (by omega)]

/-- C9: NoteBytesData::from_slice succeeds exactly on slices of length N,
and from_slice_with_tag succeeds exactly when body length plus tag length
equals N, in which case it yields the concatenation body followed by the
tag (in particular it returns none, not a panic, when the tag is wider
than N). -/
theorem note_bytes_from_slice_spec (N : Nat) (s output tag : Bytes) :
    NoteBytesData.from_slice N s = (if s.length = N then some s else none) ∧
    NoteBytesData.from_slice_with_tag N output tag =
      (if output.length + tag.length = N then some (output ++ tag) else none) :=
  ⟨rfl, from_slice_with_tag_if N output tag⟩

/-- C2: the shared validity check accepts exactly when the recomputed
commitment byte view equals the published one and, post ZIP 212 (when an
esk is derivable from the note), the recomputed epk encoding equals the
output ephemeral key under the constant-time byte comparison; pre
ZIP 212 notes (derive_esk none) are accepted on the commitment check
alone. -/
theorem check_note_validity_spec (D : Domain) (note : D.Note) (ek cm : Bytes) :
    check_note_validity D note ek cm = NoteValidity.Valid ↔
      (D.cmstar_bytes_from (D.cmstar note) = cm ∧
        (D.derive_esk note = none ∨
          ∃ esk', D.derive_esk note = some esk' ∧
            D.epk_bytes (D.ka_derive_public note esk') = ek)) := by
  rw [check_note_validity]
  by_cases h1 : D.cmstar_bytes_from (D.cmstar note) = cm
  · cases hd : D.derive_esk note with
    | none => simp [h1]
    | some e =>
      by_cases h2 : D.epk_bytes (D.ka_derive_public note e) = ek
      · simp [h1, h2]
      · simp [h1, h2]
  · simp [h1]

/-- C5: compact decryption is raw ChaCha20 with the KDF-derived key and
the all-zero 12-byte nonce, whose keystream is taken from stream block 1
(equivalently, the stream seeked to byte offset 64, skipping the
Poly1305 keying block), XOR-ed over the compact ciphertext; no tag is
verified, and the result goes through the parse and the shared validity
check. -/
theorem compact_decryption_block1 (D : Domain) (ivk : D.IncomingViewingKey)
    (output : ShieldedOutput D) :
    try_compact_note_decryption D ivk output =
      match D.epk output.ephemeral_key with
      | none => none
      | some e =>
        match D.parse_compact_note_plaintext_bytes output.enc_ciphertext_compact with
        | none => none
        | some pt =>
          parse_note_plaintext_without_memo_ivk D ivk output.ephemeral_key
            output.cmstar_bytes
            (xorBytes pt (chacha_keystream
              (D.kdf (D.ka_agree_dec ivk (D.prepare_epk e)) output.ephemeral_key)
              zero_nonce 1 pt.length)) := by
  simp only [try_compact_note_decryption, try_compact_note_decryption_inner]
  cases D.epk output.ephemeral_key with
  | none => rfl
  | some e =>
    cases D.parse_compact_note_plaintext_bytes output.enc_ciphertext_compact with
    | none => rfl
    | some pt =>
      simp only [chacha20_apply_keystream_seek, drop64_chacha_keystream]

/-- C8: when the ephemeral-key bytes of the output are not a valid EPK
encoding, both recipient-side entrypoints fail closed, and the
instrumented control flow shows that no AEAD or stream-cipher operation
is reached. -/
theorem invalid_epk_fails_closed (D : Domain) (ivk : D.IncomingViewingKey)
    (output : ShieldedOutput D) (h : D.epk output.ephemeral_key = none) :
    try_note_decryption D ivk output = none ∧
    try_compact_note_decryption D ivk output = none ∧
    (try_note_decryption_counted D ivk output).2 = 0 ∧
    (try_compact_note_decryption_counted D ivk output).2 = 0 := by
  refine ⟨?_, ?_, ?_, ?_⟩ <;>
    simp [try_note_decryption, try_compact_note_decryption,
      try_note_decryption_counted, try_compact_note_decryption_counted, h]

/-- Witness for invalid_epk_fails_closed at a concrete output whose
ephemeral-key bytes TestDomain rejects. -/
theorem invalid_epk_fails_closed_witness :
    try_note_decryption TestDomain 5 c8Output = none ∧
    try_compact_note_decryption TestDomain 5 c8Output = none ∧
    (try_note_decryption_counted TestDomain 5 c8Output).2 = 0 ∧
    (try_compact_note_decryption_counted TestDomain 5 c8Output).2 = 0 :=
  invalid_epk_fails_closed TestDomain 5 c8Output (by decide)

set_option maxRecDepth 1000000

/-- C10: the sender-recovery path feeds the raw ephemeral-key bytes into
the KDF without decoding them through Domain::epk: on a concrete
pre-ZIP-212 output whose ephemeral-key bytes are an invalid encoding,
both ivk entrypoints fail closed while try_output_recovery_with_pkd_esk
still recovers the note. -/
theorem recovery_ignores_epk_validity :
    TestDomainPre.epk c10Output.ephemeral_key = none ∧
    try_note_decryption TestDomainPre 5 c10Output = none ∧
    try_compact_note_decryption TestDomainPre 5 c10Output = none ∧
    try_output_recovery_with_pkd_esk TestDomainPre 5 1 c10Output = some (3, 4, 9) :=
  ⟨by decide, by decide, by decide, by decide⟩

/-- C3 counterexample: on a concrete context the outgoing ciphertext has
80 bytes, not the claimed 48. -/
theorem out_ciphertext_len_counterexample :
    (testCtx.encrypt_outgoing_plaintext 11 3 testRng).1.length ≠ 48 := by decide

/-- C3 amended: encrypt_outgoing_plaintext returns the AEAD ciphertext
of the 64-byte outgoing plaintext followed by the 16-byte tag, for a
total of OUT_CIPHERTEXT_SIZE = 80 bytes. -/
theorem encrypt_outgoing_plaintext_structure (D : Domain) (ne : NoteEncryption D)
    (cv : D.ValueCommitment) (cmstar : D.ExtractedCommitment) (rng : CountingRng)
    (h_len : (D.outgoing_plaintext_bytes ne.note ne.esk).length = OUT_PLAINTEXT_SIZE) :
    ∃ ock input,
      input.length = OUT_PLAINTEXT_SIZE ∧
      (ne.encrypt_outgoing_plaintext cv cmstar rng).1 =
        (chacha20poly1305_encrypt_detached ock zero_nonce [] input).1 ++
          (chacha20poly1305_encrypt_detached ock zero_nonce [] input).2 ∧
      (chacha20poly1305_encrypt_detached ock zero_nonce [] input).1.length =
        OUT_PLAINTEXT_SIZE ∧
      (chacha20poly1305_encrypt_detached ock zero_nonce [] input).2.length =
        AEAD_TAG_SIZE ∧
      (ne.encrypt_outgoing_plaintext cv cmstar rng).1.length = OUT_CIPHERTEXT_SIZE := by
  cases ho : ne.ovk with
  | some ovk =>
    refine ⟨D.derive_ock ovk cv (D.cmstar_bytes_from cmstar) (D.epk_bytes ne.epk),
      D.outgoing_plaintext_bytes ne.note ne.esk, h_len, ?_, ?_, length_poly1305 .., ?_⟩
    · simp [NoteEncryption.encrypt_outgoing_plaintext, ho]
    · rw [length_aead_ct, h_len]
    · simp [NoteEncryption.encrypt_outgoing_plaintext, ho, length_aead_ct, h_len,
        length_aead_tag, OUT_CIPHERTEXT_SIZE, OUT_PLAINTEXT_SIZE, AEAD_TAG_SIZE]
  | none =>
    have hl : ((rng.fill_bytes 32).2.fill_bytes OUT_PLAINTEXT_SIZE).1.length
        = OUT_PLAINTEXT_SIZE := length_fill_bytes ..
    refine ⟨(rng.fill_bytes 32).1, ((rng.fill_bytes 32).2.fill_bytes OUT_PLAINTEXT_SIZE).1,
      hl, ?_, ?_, length_poly1305 .., ?_⟩
    · simp [NoteEncryption.encrypt_outgoing_plaintext, ho]
    · rw [length_aead_ct, hl]
    · simp [NoteEncryption.encrypt_outgoing_plaintext, ho, length_aead_ct,
        length_fill_bytes, length_aead_tag, OUT_CIPHERTEXT_SIZE, OUT_PLAINTEXT_SIZE,
        AEAD_TAG_SIZE]

/-- Witness for encrypt_outgoing_plaintext_structure at the concrete
TestDomain context. -/
theorem encrypt_outgoing_plaintext_structure_witness :
    ∃ ock input,
      input.length = OUT_PLAINTEXT_SIZE ∧
      (testCtx.encrypt_outgoing_plaintext 11 3 testRng).1 =
        (chacha20poly1305_encrypt_detached ock zero_nonce [] input).1 ++
          (chacha20poly1305_encrypt_detached ock zero_nonce [] input).2 ∧
      (chacha20poly1305_encrypt_detached ock zero_nonce [] input).1.length =
        OUT_PLAINTEXT_SIZE ∧
      (chacha20poly1305_encrypt_detached ock zero_nonce [] input).2.length =
        AEAD_TAG_SIZE ∧
      (testCtx.encrypt_outgoing_plaintext 11 3 testRng).1.length = OUT_CIPHERTEXT_SIZE :=
  encrypt_outgoing_plaintext_structure TestDomain testCtx 11 3 testRng (by decide)

/-- C4 counterexample: with ovk absent and the RNG starting at position
0, the position after encrypt_outgoing_plaintext is not 64 (it is 96:
32 bytes for the ock plus 64 for the outgoing plaintext). -/
theorem rng_consumption_counterexample :
    ((testCtxNoOvk.encrypt_outgoing_plaintext 11 3 testRng).2).pos ≠ 64 := by decide

/-- C4 amended: encrypt_outgoing_plaintext leaves the RNG untouched when
an ovk is present, and draws exactly 96 bytes (32-byte ock plus 64-byte
outgoing plaintext) when ovk is absent. -/
theorem rng_consumption_spec (D : Domain) (ne : NoteEncryption D)
    (cv : D.ValueCommitment) (cmstar : D.ExtractedCommitment) (rng : CountingRng) :
    (∀ o, ne.ovk = some o → (ne.encrypt_outgoing_plaintext cv cmstar rng).2 = rng) ∧
    (ne.ovk = none →
      (ne.encrypt_outgoing_plaintext cv cmstar rng).2 = ⟨rng.stream, rng.pos + 96⟩) := by
  constructor
  · intro o ho
    simp [NoteEncryption.encrypt_outgoing_plaintext, ho]
  · intro ho
    simp only [NoteEncryption.encrypt_outgoing_plaintext, ho, CountingRng.fill_bytes,
      OUT_PLAINTEXT_SIZE]

/-- Witness for rng_consumption_spec: both branches at concrete
contexts. -/
theorem rng_consumption_spec_witness :
    (testCtx.encrypt_outgoing_plaintext 11 3 testRng).2 = testRng ∧
    (testCtxNoOvk.encrypt_outgoing_plaintext 11 3 testRng).2 =
      ⟨testRng.stream, testRng.pos + 96⟩ :=
  ⟨(rng_consumption_spec TestDomain testCtx 11 3 testRng).1 7 rfl,
    (rng_consumption_spec TestDomain testCtxNoOvk 11 3 testRng).2 rfl⟩

/-- C7: ZIP 212 esk consistency.  On an output whose ciphertext
decrypts and parses on both paths to a note from which an esk is
derivable, if that derived esk differs (under the constant-time
comparison) from the esk the key material was built from, the sender
path returns none; and if the epk encoding recomputed from the derived
esk differs from the output's ephemeral key, the ivk path returns none
through the shared validity check. -/
theorem esk_consistency_both_paths (D : Domain)
    (pk_d : D.DiversifiedTransmissionKey) (esk derived : D.EphemeralSecretKey)
    (ivk : D.IncomingViewingKey) (epkd : D.EphemeralPublicKey)
    (output : ShieldedOutput D) (ctbuf tag pt compact : Bytes)
    (memo : D.Memo) (note : D.Note) (recipient : D.Recipient)
    (h_split_tag : output.split_ciphertext_at_tag = some (ctbuf, tag))
    (h_dec : chacha20poly1305_decrypt_detached
      (D.kdf (D.ka_agree_enc esk pk_d) output.ephemeral_key) zero_nonce [] ctbuf tag
      = some pt)
    (h_splitmemo : D.split_plaintext_at_memo pt = some (compact, memo))
    (h_parse_ovk : D.parse_note_plaintext_without_memo_ovk pk_d compact
      = some (note, recipient))
    (h_derived : D.derive_esk note = some derived)
    (h_ct : D.esk_ct_eq derived esk = false)
    (h_epkdec : D.epk output.ephemeral_key = some epkd)
    (h_key : D.kdf (D.ka_agree_dec ivk (D.prepare_epk epkd)) output.ephemeral_key =
      D.kdf (D.ka_agree_enc esk pk_d) output.ephemeral_key)
    (h_parse_ivk : D.parse_note_plaintext_without_memo_ivk ivk compact
      = some (note, recipient))
    (h_epkne : (D.epk_bytes (D.ka_derive_public note derived) == output.ephemeral_key)
      = false) :
    try_output_recovery_with_pkd_esk D pk_d esk output = none ∧
    try_note_decryption D ivk output = none := by
  have hval : check_note_validity D note output.ephemeral_key output.cmstar_bytes
      = NoteValidity.Invalid := by
    rw [check_note_validity]
    cases hcm : D.cmstar_bytes_from (D.cmstar note) == output.cmstar_bytes with
    | false => simp [hcm]
    | true => simp [hcm, h_derived, h_epkne]
  constructor
  · simp only [try_output_recovery_with_pkd_esk, h_split_tag, h_dec, h_splitmemo,
      h_parse_ovk, h_derived, h_ct]
    simp
  · have hparse : parse_note_plaintext_without_memo_ivk D ivk output.ephemeral_key
        output.cmstar_bytes compact = none := by
      simp [parse_note_plaintext_without_memo_ivk, h_parse_ivk, hval]
    simp only [try_note_decryption, h_epkdec, try_note_decryption_inner, h_key,
      h_split_tag, h_dec, h_splitmemo, hparse]

/-- Witness for esk_consistency_both_paths at the concrete mismatch
scenario: the note derives esk 4 while the key material used esk 1. -/
theorem esk_consistency_both_paths_witness :
    try_output_recovery_with_pkd_esk TestDomain 5 1 c7Output = none ∧
    try_note_decryption TestDomain 5 c7Output = none :=
  esk_consistency_both_paths TestDomain 5 1 4 5 1 c7Output c7Enc.1 c7Enc.2 [3, 9] [3]
    9 3 4 (by decide) (by decide) (by decide) (by decide) (by decide) (by decide)
    (by decide) (by decide) (by decide) (by decide)

/-- The first AEAD component is the keystream XOR of the plaintext. -/
theorem aead_ct_eq (key nonce aad pt : Bytes) :
    (chacha20poly1305_encrypt_detached key nonce aad pt).1
      = xorBytes pt (chacha_keystream key nonce 1 pt.length) := rfl

/-- Taking a left part commutes with the byte XOR. -/
theorem take_xorBytes (a b : Bytes) (n : Nat) :
    (xorBytes a b).take n = xorBytes (a.take n) (b.take n) := by
  simp [xorBytes, List.take_zipWith]

/-- NoteEncryption.new on a ZIP-212 note yields the expected context. -/
theorem new_eq (D : Domain) (ovk : Option D.OutgoingViewingKey) (note : D.Note)
    (memo : D.Memo) (esk : D.EphemeralSecretKey)
    (h_esk : D.derive_esk note = some esk) :
    NoteEncryption.new D ovk note memo =
      some ⟨D.ka_derive_public note esk, esk, note, memo, ovk⟩ := by
  rw [NoteEncryption.new, h_esk]

/-- encrypt_note_plaintext on a context with consistent buffer widths
yields the AEAD ciphertext followed by the tag. -/
theorem encrypt_note_plaintext_eq (D : Domain) (ovk : Option D.OutgoingViewingKey)
    (note : D.Note) (memo : D.Memo) (esk : D.EphemeralSecretKey)
    (h_ptlen : (D.note_plaintext_bytes note memo).length = D.notePlaintextSize)
    (h_ctsize : D.noteCiphertextSize = D.notePlaintextSize + AEAD_TAG_SIZE) :
    (NoteEncryption.mk (D.ka_derive_public note esk) esk note memo ovk :
        NoteEncryption D).encrypt_note_plaintext =
      some ((chacha20poly1305_encrypt_detached
          (D.kdf (D.ka_agree_enc esk (D.get_pk_d note))
            (D.epk_bytes (D.ka_derive_public note esk))) zero_nonce []
          (D.note_plaintext_bytes note memo)).1 ++
        (chacha20poly1305_encrypt_detached
          (D.kdf (D.ka_agree_enc esk (D.get_pk_d note))
            (D.epk_bytes (D.ka_derive_public note esk))) zero_nonce []
          (D.note_plaintext_bytes note memo)).2) := by
  simp only [NoteEncryption.encrypt_note_plaintext, Domain.parse_note_ciphertext_bytes,
    from_slice_with_tag_if]
  rw [if_pos (by simp [length_aead_ct, length_aead_tag, h_ptlen, h_ctsize, AEAD_TAG_SIZE])]

/-- split_ciphertext_at_tag on a full output carrying a ciphertext of
the consistent width splits it back into body and tag. -/
theorem split_tag_of_enc (D : Domain) (cm : D.ExtractedCommitment)
    (ek compactCt ctb tg : Bytes)
    (hct : ctb.length = D.notePlaintextSize) (htg : tg.length = AEAD_TAG_SIZE) :
    (ShieldedOutput.mk ek cm (some (ctb ++ tg)) compactCt :
      ShieldedOutput D).split_ciphertext_at_tag = some (ctb, tg) := by
  have h1 : checked_sub (ctb ++ tg).length AEAD_TAG_SIZE = some ctb.length := by
    rw [checked_sub, List.length_append, htg]
    rw [if_pos (by omega)]
    congr 1
  have h2 : D.parse_note_plaintext_bytes ((ctb ++ tg).take ctb.length) = some ctb := by
    rw [List.take_left, Domain.parse_note_plaintext_bytes, NoteBytesData.from_slice,
      if_pos hct]
  simp only [ShieldedOutput.split_ciphertext_at_tag, h1, h2, List.drop_left]

/-- The shared validity check accepts the exact data the encryption
context published. -/
theorem check_note_validity_of_enc (D : Domain) (note : D.Note)
    (esk : D.EphemeralSecretKey) (h_esk : D.derive_esk note = some esk) :
    check_note_validity D note (D.epk_bytes (D.ka_derive_public note esk))
      (D.cmstar_bytes_from (D.cmstar note)) = NoteValidity.Valid := by
  simp [check_note_validity, h_esk]

/-- Full-path round trip, stated against the explicitly constructed
output: try_note_decryption recovers the note, recipient, and memo. -/
theorem try_note_decryption_roundtrip_aux (D : Domain) (note : D.Note) (memo : D.Memo)
    (ivk : D.IncomingViewingKey) (esk : D.EphemeralSecretKey)
    (epkd : D.EphemeralPublicKey) (compact : Bytes) (recipient : D.Recipient)
    (compactCt : Bytes)
    (h_esk : D.derive_esk note = some esk)
    (h_decode : D.epk (D.epk_bytes (D.ka_derive_public note esk)) = some epkd)
    (h_agree : D.ka_agree_dec ivk (D.prepare_epk epkd)
      = D.ka_agree_enc esk (D.get_pk_d note))
    (h_ptlen : (D.note_plaintext_bytes note memo).length = D.notePlaintextSize)
    (h_split : D.split_plaintext_at_memo (D.note_plaintext_bytes note memo)
      = some (compact, memo))
    (h_parse : D.parse_note_plaintext_without_memo_ivk ivk compact
      = some (note, recipient)) :
    try_note_decryption D ivk
      (ShieldedOutput.mk (D.epk_bytes (D.ka_derive_public note esk)) (D.cmstar note)
        (some ((chacha20poly1305_encrypt_detached
            (D.kdf (D.ka_agree_enc esk (D.get_pk_d note))
              (D.epk_bytes (D.ka_derive_public note esk))) zero_nonce []
            (D.note_plaintext_bytes note memo)).1 ++
          (chacha20poly1305_encrypt_detached
            (D.kdf (D.ka_agree_enc esk (D.get_pk_d note))
              (D.epk_bytes (D.ka_derive_public note esk))) zero_nonce []
            (D.note_plaintext_bytes note memo)).2))
        compactCt)
      = some (note, recipient, memo) := by
  have hct : (chacha20poly1305_encrypt_detached
      (D.kdf (D.ka_agree_enc esk (D.get_pk_d note))
        (D.epk_bytes (D.ka_derive_public note esk))) zero_nonce []
      (D.note_plaintext_bytes note memo)).1.length = D.notePlaintextSize := by
    rw [length_aead_ct, h_ptlen]
  have hsplit_tag := split_tag_of_enc D (D.cmstar note)
    (D.epk_bytes (D.ka_derive_public note esk)) compactCt _ _ hct
    (length_aead_tag (D.kdf (D.ka_agree_enc esk (D.get_pk_d note))
      (D.epk_bytes (D.ka_derive_public note esk))) zero_nonce []
      (D.note_plaintext_bytes note memo))
  simp only [try_note_decryption, h_decode, try_note_decryption_inner, hsplit_tag,
    h_agree, aead_roundtrip, h_split, parse_note_plaintext_without_memo_ivk,
    ShieldedOutput.cmstar_bytes, h_parse, check_note_validity_of_enc D note esk h_esk]
  simp

/-- Compact-path round trip, stated against the corresponding compact
output (the compact ciphertext is the leading slice of the AEAD
ciphertext body). -/
theorem try_compact_note_decryption_roundtrip_aux (D : Domain) (note : D.Note)
    (memo : D.Memo) (ivk : D.IncomingViewingKey) (esk : D.EphemeralSecretKey)
    (epkd : D.EphemeralPublicKey) (compact : Bytes) (recipient : D.Recipient)
    (fullCt : Option Bytes)
    (h_esk : D.derive_esk note = some esk)
    (h_decode : D.epk (D.epk_bytes (D.ka_derive_public note esk)) = some epkd)
    (h_agree : D.ka_agree_dec ivk (D.prepare_epk epkd)
      = D.ka_agree_enc esk (D.get_pk_d note))
    (h_ptlen : (D.note_plaintext_bytes note memo).length = D.notePlaintextSize)
    (h_parse : D.parse_note_plaintext_without_memo_ivk ivk compact
      = some (note, recipient))
    (h_cs : compact = (D.note_plaintext_bytes note memo).take D.compactNotePlaintextSize)
    (h_csle : D.compactNotePlaintextSize ≤ D.notePlaintextSize) :
    try_compact_note_decryption D ivk
      (ShieldedOutput.mk (D.epk_bytes (D.ka_derive_public note esk)) (D.cmstar note)
        fullCt
        (((chacha20poly1305_encrypt_detached
            (D.kdf (D.ka_agree_enc esk (D.get_pk_d note))
              (D.epk_bytes (D.ka_derive_public note esk))) zero_nonce []
            (D.note_plaintext_bytes note memo)).1).take D.compactNotePlaintextSize))
      = some (note, recipient) := by
  have hptle : D.compactNotePlaintextSize ≤ (D.note_plaintext_bytes note memo).length := by
    rw [h_ptlen]
    exact h_csle
  have hplen : (((chacha20poly1305_encrypt_detached
      (D.kdf (D.ka_agree_enc esk (D.get_pk_d note))
        (D.epk_bytes (D.ka_derive_public note esk))) zero_nonce []
      (D.note_plaintext_bytes note memo)).1).take D.compactNotePlaintextSize).length
      = D.compactNotePlaintextSize := by
    rw [List.length_take, length_aead_ct]
    omega
  have hparse_c : D.parse_compact_note_plaintext_bytes
      (((chacha20poly1305_encrypt_detached
        (D.kdf (D.ka_agree_enc esk (D.get_pk_d note))
          (D.epk_bytes (D.ka_derive_public note esk))) zero_nonce []
        (D.note_plaintext_bytes note memo)).1).take D.compactNotePlaintextSize)
      = some (((chacha20poly1305_encrypt_detached
        (D.kdf (D.ka_agree_enc esk (D.get_pk_d note))
          (D.epk_bytes (D.ka_derive_public note esk))) zero_nonce []
        (D.note_plaintext_bytes note memo)).1).take D.compactNotePlaintextSize) := by
    rw [Domain.parse_compact_note_plaintext_bytes, NoteBytesData.from_slice, if_pos hplen]
  have hxor : chacha20_apply_keystream_seek
      (D.kdf (D.ka_agree_enc esk (D.get_pk_d note))
        (D.epk_bytes (D.ka_derive_public note esk))) zero_nonce 64
      (((chacha20poly1305_encrypt_detached
        (D.kdf (D.ka_agree_enc esk (D.get_pk_d note))
          (D.epk_bytes (D.ka_derive_public note esk))) zero_nonce []
        (D.note_plaintext_bytes note memo)).1).take D.compactNotePlaintextSize)
      = compact := by
    rw [chacha20_apply_keystream_seek, hplen, drop64_chacha_keystream, aead_ct_eq,
      take_xorBytes, take_chacha_keystream _ _ _ hptle]
    rw [xorBytes_cancel (by rw [length_chacha_keystream, List.length_take]; omega)]
    exact h_cs.symm
  simp only [try_compact_note_decryption, h_decode, try_compact_note_decryption_inner,
    h_agree, hparse_c, hxor, parse_note_plaintext_without_memo_ivk,
    ShieldedOutput.cmstar_bytes, h_parse, check_note_validity_of_enc D note esk h_esk]
  simp

/-- C1: round trip through the ivk path.  For every domain whose parsers
invert its encoders (the listed hypotheses), every optional ovk, note
and memo: building an encryption context with new (esk derived from the
note, epk from esk), encrypting, and decrypting the published output
with the ivk matching the note's pk_d returns exactly the original note,
its recipient, and the original memo. -/
theorem round_trip_ivk (D : Domain) (ovk : Option D.OutgoingViewingKey) (note : D.Note)
    (memo : D.Memo) (ivk : D.IncomingViewingKey) (esk : D.EphemeralSecretKey)
    (epkd : D.EphemeralPublicKey) (compact : Bytes) (recipient : D.Recipient)
    (h_esk : D.derive_esk note = some esk)
    (h_decode : D.epk (D.epk_bytes (D.ka_derive_public note esk)) = some epkd)
    (h_agree : D.ka_agree_dec ivk (D.prepare_epk epkd)
      = D.ka_agree_enc esk (D.get_pk_d note))
    (h_ptlen : (D.note_plaintext_bytes note memo).length = D.notePlaintextSize)
    (h_ctsize : D.noteCiphertextSize = D.notePlaintextSize + AEAD_TAG_SIZE)
    (h_split : D.split_plaintext_at_memo (D.note_plaintext_bytes note memo)
      = some (compact, memo))
    (h_parse : D.parse_note_plaintext_without_memo_ivk ivk compact
      = some (note, recipient)) :
    ∃ ctx ct, NoteEncryption.new D ovk note memo = some ctx ∧
      ctx.encrypt_note_plaintext = some ct ∧
      try_note_decryption D ivk
        (ShieldedOutput.mk (D.epk_bytes ctx.epk) (D.cmstar ctx.note) (some ct)
          (ct.take D.compactNotePlaintextSize))
        = some (note, recipient, memo) :=
  ⟨⟨D.ka_derive_public note esk, esk, note, memo, ovk⟩, _,
    new_eq D ovk note memo esk h_esk,
    encrypt_note_plaintext_eq D ovk note memo esk h_ptlen h_ctsize,
    try_note_decryption_roundtrip_aux D note memo ivk esk epkd compact recipient _
      h_esk h_decode h_agree h_ptlen h_split h_parse⟩

/-- Witness for round_trip_ivk at the concrete TestDomain instance
(note 3, memo 9, esk 4, ivk = pk_d = 5). -/
theorem round_trip_ivk_witness :
    ∃ ctx ct, NoteEncryption.new TestDomain (some 7) 3 9 = some ctx ∧
      ctx.encrypt_note_plaintext = some ct ∧
      try_note_decryption TestDomain 5
        (ShieldedOutput.mk (TestDomain.epk_bytes ctx.epk) (TestDomain.cmstar ctx.note)
          (some ct) (ct.take TestDomain.compactNotePlaintextSize))
        = some (3, 4, 9) :=
  round_trip_ivk TestDomain (some 7) 3 9 5 4 4 [3] 4 (by decide) (by decide)
    (by decide) (by decide) (by decide) (by decide) (by decide)

/-- C6: cross-path agreement.  For the compact output obtained from the
full output of a successful encryption (same ephemeral key and
commitment, the compact slice of the same ciphertext, no full
ciphertext), try_compact_note_decryption returns exactly the
(note, recipient) pair that try_note_decryption returns on the full
output, minus the memo. -/
theorem compact_full_agreement (D : Domain) (ovk : Option D.OutgoingViewingKey)
    (note : D.Note) (memo : D.Memo) (ivk : D.IncomingViewingKey)
    (esk : D.EphemeralSecretKey) (epkd : D.EphemeralPublicKey) (compact : Bytes)
    (recipient : D.Recipient)
    (h_esk : D.derive_esk note = some esk)
    (h_decode : D.epk (D.epk_bytes (D.ka_derive_public note esk)) = some epkd)
    (h_agree : D.ka_agree_dec ivk (D.prepare_epk epkd)
      = D.ka_agree_enc esk (D.get_pk_d note))
    (h_ptlen : (D.note_plaintext_bytes note memo).length = D.notePlaintextSize)
    (h_ctsize : D.noteCiphertextSize = D.notePlaintextSize + AEAD_TAG_SIZE)
    (h_split : D.split_plaintext_at_memo (D.note_plaintext_bytes note memo)
      = some (compact, memo))
    (h_parse : D.parse_note_plaintext_without_memo_ivk ivk compact
      = some (note, recipient))
    (h_cs : compact = (D.note_plaintext_bytes note memo).take D.compactNotePlaintextSize)
    (h_csle : D.compactNotePlaintextSize ≤ D.notePlaintextSize) :
    ∃ ctx ct, NoteEncryption.new D ovk note memo = some ctx ∧
      ctx.encrypt_note_plaintext = some ct ∧
      try_note_decryption D ivk
        (ShieldedOutput.mk (D.epk_bytes ctx.epk) (D.cmstar ctx.note) (some ct)
          (ct.take D.compactNotePlaintextSize)) = some (note, recipient, memo) ∧
      try_compact_note_decryption D ivk
        (ShieldedOutput.mk (D.epk_bytes ctx.epk) (D.cmstar ctx.note) none
          (ct.take D.compactNotePlaintextSize)) = some (note, recipient) := by
  refine ⟨⟨D.ka_derive_public note esk, esk, note, memo, ovk⟩, _,
    new_eq D ovk note memo esk h_esk,
    encrypt_note_plaintext_eq D ovk note memo esk h_ptlen h_ctsize,
    try_note_decryption_roundtrip_aux D note memo ivk esk epkd compact recipient _
      h_esk h_decode h_agree h_ptlen h_split h_parse, ?_⟩
  have hta : ((chacha20poly1305_encrypt_detached
      (D.kdf (D.ka_agree_enc esk (D.get_pk_d note))
        (D.epk_bytes (D.ka_derive_public note esk))) zero_nonce []
      (D.note_plaintext_bytes note memo)).1 ++
      (chacha20poly1305_encrypt_detached
        (D.kdf (D.ka_agree_enc esk (D.get_pk_d note))
          (D.epk_bytes (D.ka_derive_public note esk))) zero_nonce []
        (D.note_plaintext_bytes note memo)).2).take D.compactNotePlaintextSize
      = ((chacha20poly1305_encrypt_detached
        (D.kdf (D.ka_agree_enc esk (D.get_pk_d note))
          (D.epk_bytes (D.ka_derive_public note esk))) zero_nonce []
        (D.note_plaintext_bytes note memo)).1).take D.compactNotePlaintextSize := by
    apply List.take_append_of_le_length
    rw [length_aead_ct, h_ptlen]
    exact h_csle
  rw [hta]
  exact try_compact_note_decryption_roundtrip_aux D note memo ivk esk epkd compact
    recipient _ h_esk h_decode h_agree h_ptlen h_parse h_cs h_csle

/-- Witness for compact_full_agreement at the concrete TestDomain
instance: both paths agree on (3, 4), the full path additionally
returning memo 9. -/
theorem compact_full_agreement_witness :
    ∃ ctx ct, NoteEncryption.new TestDomain (some 7) 3 9 = some ctx ∧
      ctx.encrypt_note_plaintext = some ct ∧
      try_note_decryption TestDomain 5
        (ShieldedOutput.mk (TestDomain.epk_bytes ctx.epk) (TestDomain.cmstar ctx.note)
          (some ct) (ct.take TestDomain.compactNotePlaintextSize)) = some (3, 4, 9) ∧
      try_compact_note_decryption TestDomain 5
        (ShieldedOutput.mk (TestDomain.epk_bytes ctx.epk) (TestDomain.cmstar ctx.note)
          none (ct.take TestDomain.compactNotePlaintextSize)) = some (3, 4) :=
  compact_full_agreement TestDomain (some 7) 3 9 5 4 4 [3] 4 (by decide) (by decide)
    (by decide) (by decide) (by decide) (by decide) (by decide) (by decide) (by decide)

end ZcashNoteEnc
